import Mathlib

/-!
# Verification of the ObsequiNG two-tier cache engine

Shallow embedding of `src/app/services/cache.service.ts`: the in-memory tier
(a JavaScript `Map`, modelled as an association list preserving insertion
order), the IndexedDB durable tier (modelled as an optional store that may be
absent, as when `indexedDB.open` failed, or in a failing mode in which every
issued request rejects), and the `CacheService` operations `set`, `get`,
`has`, `delete`, `clear`, `cleanup` together with the private helpers
`enforceMemoryLimit`, `calculateMemoryUsage`, `calculateSize` and
`updateStats`.

Asynchronous durable-tier requests either resolve or reject; a rejection is
modelled by `Except DBError`.  Each public operation returns the outcome
together with the post-state of the service instance (the instance survives a
rejected promise, so the state component is meaningful even on `.error`).
-/

namespace ObsequiNG

/-- The payload universe: JSON-serialisable JavaScript values.  The cache
treats `data` opaquely; only `JSON.stringify`-based size measurement and the
`null` sentinel of `get` inspect it. -/
inductive JsValue where
  | jnull
  | jbool (b : Bool)
  | jnum (n : Int)
  | jstr (s : String)
deriving DecidableEq

/-- `JSON.stringify` for the modelled payloads (string escaping is not
modelled; only byte lengths reach the cache logic). -/
def stringifyJson : JsValue → String
  | .jnull => "null"
  | .jbool true => "true"
  | .jbool false => "false"
  | .jnum n => toString n
  | .jstr s => "\"" ++ s ++ "\""

/-- `metadata` of a `CacheEntry` (`size`, `type`, `version`). -/
structure Metadata where
  size : Nat
  type : String
  version : String
deriving DecidableEq

/-- The `CacheEntry` interface of `cache.service.ts`. -/
structure CacheEntry where
  key : String
  data : JsValue
  timestamp : Nat
  expiration : Nat
  accessCount : Nat
  lastAccessed : Nat
  metadata : Metadata
deriving DecidableEq

/-- The `CacheStats` interface.  `hitRate` is a ratio (JS number); it is
modelled as a rational. -/
structure CacheStats where
  totalEntries : Nat
  totalSize : Nat
  hitRate : ℚ
  memoryUsage : Nat
  oldestEntry : Nat
  newestEntry : Nat
deriving DecidableEq

/-- State of the opened IndexedDB database: the object store contents plus a
failure mode in which every issued request fires `onerror`. -/
structure DBState where
  store : List CacheEntry
  failing : Bool
deriving DecidableEq

/-- A rejected IndexedDB request (`request.error`). -/
inductive DBError where
  | mk
deriving DecidableEq

/-- The mutable fields of the `CacheService` instance.  `db = none` models
`this.db === null` (IndexedDB never opened); `stats` is the last snapshot
pushed into `statsSubject`. -/
structure CacheState where
  db : Option DBState
  memoryCache : List CacheEntry
  hitCount : Nat
  missCount : Nat
  stats : CacheStats
deriving DecidableEq

/-! ## The memory tier: a JavaScript `Map` keyed by `entry.key`

A JS `Map` preserves insertion order and keeps at most one binding per key;
`set` on an existing key updates the binding in place (position preserved),
on a fresh key it appends. -/

/-- `Map.prototype.get`. -/
def mapGet : List CacheEntry → String → Option CacheEntry
  | [], _ => none
  | e :: rest, k => if e.key = k then some e else mapGet rest k

/-- `Map.prototype.set` (replace in place, else append). -/
def mapSet : List CacheEntry → CacheEntry → List CacheEntry
  | [], e => [e]
  | x :: rest, e => if x.key = e.key then e :: rest else x :: mapSet rest e

/-- `Map.prototype.delete`. -/
def mapDelete : List CacheEntry → String → List CacheEntry
  | [], _ => []
  | e :: rest, k => if e.key = k then mapDelete rest k else e :: mapDelete rest k

/-- Removal of every entry with `expiration <= now` (the memory-tier part of
`cleanup`, and the durable-tier `expiration` index sweep of
`cleanupIndexedDB`, both of which delete exactly those entries). -/
def pruneExpired : List CacheEntry → Nat → List CacheEntry
  | [], _ => []
  | e :: rest, now => if e.expiration ≤ now then pruneExpired rest now
      else e :: pruneExpired rest now

namespace CacheService

/-- `MAX_MEMORY_CACHE_SIZE` (in MB). -/
def MAX_MEMORY_CACHE_SIZE : Nat := 50

/-- The memory-tier ceiling in bytes (`MAX_MEMORY_CACHE_SIZE * 1024 * 1024`
in `enforceMemoryLimit`). -/
def maxMemoryBytes : Nat := MAX_MEMORY_CACHE_SIZE * 1024 * 1024

/-- `DEFAULT_TTL` (24 hours in milliseconds). -/
def DEFAULT_TTL : Nat := 1000 * 60 * 60 * 24

/-- `calculateSize`: byte length of the UTF-8 encoding of the JSON
serialisation.  (The `catch` fallback of the source is unreachable for the
modelled payloads, which always serialise.) -/
def calculateSize (data : JsValue) : Nat :=
  (stringifyJson data).utf8ByteSize

/-- `calculateMemoryUsage`: sum of `metadata.size` over the resident
entries. -/
def calculateMemoryUsage : List CacheEntry → Nat
  | [] => 0
  | e :: rest => e.metadata.size + calculateMemoryUsage rest

/-- Insert `e` into a list sorted by ascending `lastAccessed`, before the
first entry with equal or larger `lastAccessed` — the insertion step of a
stable ascending sort. -/
def insertByLastAccessed (e : CacheEntry) : List CacheEntry → List CacheEntry
  | [] => [e]
  | y :: ys => if e.lastAccessed ≤ y.lastAccessed then e :: y :: ys
      else y :: insertByLastAccessed e ys

/-- The `sort` call of `enforceMemoryLimit`: a stable sort of the map's
entries (insertion order) by the comparator `a.lastAccessed -
b.lastAccessed` (ECMAScript `Array.prototype.sort` is stable). -/
def sortByLastAccessed : List CacheEntry → List CacheEntry
  | [] => []
  | x :: xs => insertByLastAccessed x (sortByLastAccessed xs)

/-- The `while` loop of `enforceMemoryLimit`: as long as the recomputed
usage exceeds `maxSize` and candidates remain, shift the front candidate and
delete it from the map. -/
def evictLoop (m : List CacheEntry) : List CacheEntry → List CacheEntry
  | [] => m
  | e :: rest =>
    if maxMemoryBytes < calculateMemoryUsage m then
      evictLoop (mapDelete m e.key) rest
    else m

/-- `enforceMemoryLimit`. -/
def enforceMemoryLimit (m : List CacheEntry) : List CacheEntry :=
  if maxMemoryBytes < calculateMemoryUsage m then
    evictLoop m (sortByLastAccessed m)
  else m

/-- Delete from the map, in order, the keys of the listed candidates (used
to characterise what the eviction loop does). -/
def dropKeys (m : List CacheEntry) : List CacheEntry → List CacheEntry
  | [] => m
  | e :: rest => dropKeys (mapDelete m e.key) rest

/-! ## The durable tier (IndexedDB adapter methods)

Each method resolves with a value (and the updated store) or rejects; when
`this.db` is `null` each method returns early without touching IndexedDB. -/

/-- `setInIndexedDB` (`objectStore.put`, an upsert by primary key). -/
def setInIndexedDB (db : Option DBState) (e : CacheEntry) :
    Except DBError (Option DBState) :=
  match db with
  | none => .ok none
  | some d => if d.failing then .error .mk
      else .ok (some { d with store := mapSet d.store e })

/-- `getFromIndexedDB` (`objectStore.get`, resolving `result || null`). -/
def getFromIndexedDB (db : Option DBState) (k : String) :
    Except DBError (Option CacheEntry) :=
  match db with
  | none => .ok none
  | some d => if d.failing then .error .mk else .ok (mapGet d.store k)

/-- `deleteFromIndexedDB` (`objectStore.delete`). -/
def deleteFromIndexedDB (db : Option DBState) (k : String) :
    Except DBError (Option DBState) :=
  match db with
  | none => .ok none
  | some d => if d.failing then .error .mk
      else .ok (some { d with store := mapDelete d.store k })

/-- `clearIndexedDB` (`objectStore.clear`). -/
def clearIndexedDB (db : Option DBState) : Except DBError (Option DBState) :=
  match db with
  | none => .ok none
  | some d => if d.failing then .error .mk
      else .ok (some { d with store := [] })

/-- `cleanupIndexedDB`: cursor over the `expiration` index bounded above by
`now` (inclusive), deleting every visited record. -/
def cleanupIndexedDB (db : Option DBState) (now : Nat) :
    Except DBError (Option DBState) :=
  match db with
  | none => .ok none
  | some d => if d.failing then .error .mk
      else .ok (some { d with store := pruneExpired d.store now })

/-! ## Stats publishing -/

/-- The `getAll` read of `updateStats`: `[]` when `this.db` is `null`, and
also `[]` when the request rejects (the surrounding `try`/`catch` swallows
the failure). -/
def dbEntriesForStats : Option DBState → List CacheEntry
  | none => []
  | some d => if d.failing then [] else d.store

/-- Is `k` absent from the memory entries (the
`!memoryEntries.find(mem => mem.key === db.key)` filter)? -/
def keyAbsent : List CacheEntry → String → Bool
  | [], _ => true
  | e :: rest, k => if e.key = k then false else keyAbsent rest k

/-- `allEntries`: memory entries plus the durable entries whose key is not
memory-resident. -/
def unionEntries (memoryEntries dbEntries : List CacheEntry) : List CacheEntry :=
  memoryEntries ++ dbEntries.filter (fun e => keyAbsent memoryEntries e.key)

/-- `Math.min` over a nonempty list (the source guards the empty case). -/
def foldMin : List Nat → Nat
  | [] => 0
  | t :: ts => ts.foldl Nat.min t

/-- `Math.max` over a nonempty list. -/
def foldMax : List Nat → Nat
  | [] => 0
  | t :: ts => ts.foldl Nat.max t

/-- `updateStats`: recompute the snapshot from the two tiers and the hit and
miss counters and push it into `statsSubject`. -/
def updateStats (s : CacheState) : CacheState :=
  let allEntries := unionEntries s.memoryCache (dbEntriesForStats s.db)
  let totalRequests := s.hitCount + s.missCount
  { s with stats := {
      totalEntries := allEntries.length
      totalSize := calculateMemoryUsage allEntries
      hitRate := if 0 < totalRequests
        then ((s.hitCount : ℚ) / (totalRequests : ℚ)) * 100 else 0
      memoryUsage := calculateMemoryUsage s.memoryCache
      oldestEntry := foldMin (allEntries.map (fun e => e.timestamp))
      newestEntry := foldMax (allEntries.map (fun e => e.timestamp)) } }

/-! ## Public operations -/

/-- The `filter(entry => entry.expiration > now)` step of
`loadMemoryCache`: keep exactly the unexpired records. -/
def filterUnexpired : List CacheEntry → Nat → List CacheEntry
  | [], _ => []
  | e :: rest, now => if now < e.expiration then e :: filterUnexpired rest now
      else filterUnexpired rest now

/-- Insertion step of a stable descending sort by the score
`accessCount * lastAccessed` (the `loadMemoryCache` comparator
`(b.accessCount * b.lastAccessed) - (a.accessCount * a.lastAccessed)`). -/
def insertByScoreDesc (e : CacheEntry) : List CacheEntry → List CacheEntry
  | [] => [e]
  | y :: ys => if y.accessCount * y.lastAccessed ≤ e.accessCount * e.lastAccessed
      then e :: y :: ys else y :: insertByScoreDesc e ys

/-- The `sort` call of `loadMemoryCache`: stable (ECMAScript sort),
descending by `accessCount * lastAccessed`. -/
def sortByScoreDesc : List CacheEntry → List CacheEntry
  | [] => []
  | x :: xs => insertByScoreDesc x (sortByScoreDesc xs)

/-- `loadMemoryCache` (run by the constructor once `initializeIndexedDB`
opened the database): read all durable records, keep the unexpired ones,
sort them by descending `accessCount * lastAccessed`, `slice(0, 20)` and
`Map.set` each into the memory tier — with no size check and no
`enforceMemoryLimit` call — then publish stats.  When `this.db` is `null`
it returns at once, and when the read fails the `catch` leaves the cache
as it is; neither path republishes stats.  (The store list stands for the
`getAll()` enumeration of the records; nothing proved here depends on
that enumeration order.) -/
def loadMemoryCache (s : CacheState) (now : Nat) : CacheState :=
  match s.db with
  | none => s
  | some d =>
    if d.failing then s
    else
      let seeded := ((sortByScoreDesc (filterUnexpired d.store now)).take 20).foldl mapSet s.memoryCache
      updateStats { s with memoryCache := seeded }

/-- The `entry` constructed at the start of `set`. -/
def buildEntry (key : String) (data : JsValue) (ttl : Nat) (ty : String)
    (now : Nat) : CacheEntry :=
  { key := key, data := data, timestamp := now, expiration := now + ttl,
    accessCount := 0, lastAccessed := now,
    metadata := { size := calculateSize data, type := ty, version := "1.0" } }

/-- The in-place access-stat bump `entry.accessCount++; entry.lastAccessed =
now` performed by `get` on a hit. -/
def bump (e : CacheEntry) (now : Nat) : CacheEntry :=
  { e with accessCount := e.accessCount + 1, lastAccessed := now }

/-- `set(key, data, ttl, type)`.  The memory write (for payloads under 1 MiB)
happens before the awaited durable write; a durable rejection propagates to
the caller with the memory write already applied, and skips `updateStats`. -/
def set (s : CacheState) (key : String) (data : JsValue) (ttl : Nat)
    (ty : String) (now : Nat) : Except DBError Unit × CacheState :=
  let entry : CacheEntry := buildEntry key data ttl ty now
  let s1 := if entry.metadata.size < 1024 * 1024 then
      { s with memoryCache := enforceMemoryLimit (mapSet s.memoryCache entry) }
    else s
  match setInIndexedDB s1.db entry with
  | .error err => (.error err, s1)
  | .ok db1 => (.ok (), updateStats { s1 with db := db1 })

/-- The IndexedDB half of `get`: durable lookup, access-stat bump, optional
promotion into the memory tier, write-back of the bumped stats, and the miss
path. -/
def tryDurable (s : CacheState) (key : String) (now : Nat) :
    Except DBError JsValue × CacheState :=
  match getFromIndexedDB s.db key with
  | .error err => (.error err, s)
  | .ok none => (.ok .jnull, { s with missCount := s.missCount + 1 })
  | .ok (some entry) =>
    if now < entry.expiration then
      let e1 := bump entry now
      let s1 := if 2 < e1.accessCount ∧ e1.metadata.size < 1024 * 1024 then
          { s with memoryCache := enforceMemoryLimit (mapSet s.memoryCache e1) }
        else s
      match setInIndexedDB s1.db e1 with
      | .error err => (.error err, s1)
      | .ok db1 =>
        (.ok entry.data, { s1 with db := db1, hitCount := s1.hitCount + 1 })
    else (.ok .jnull, { s with missCount := s.missCount + 1 })

/-- `get(key)`: memory tier first (a hit bumps the entry's access stats in
place and counts a hit), else the durable tier; `null` is the absent
sentinel. -/
def get (s : CacheState) (key : String) (now : Nat) :
    Except DBError JsValue × CacheState :=
  match mapGet s.memoryCache key with
  | some entry =>
    if now < entry.expiration then
      let e1 := bump entry now
      let s1 := { s with memoryCache := mapSet s.memoryCache e1 }
      (.ok entry.data, { s1 with hitCount := s1.hitCount + 1 })
    else tryDurable s key now
  | none => tryDurable s key now

/-- `has(key)`: `await get(key)` and compare against `null`. -/
def has (s : CacheState) (key : String) (now : Nat) :
    Except DBError Bool × CacheState :=
  match get s key now with
  | (.error err, s1) => (.error err, s1)
  | (.ok v, s1) => if v = JsValue.jnull then (.ok false, s1) else (.ok true, s1)

/-- `delete(key)`: remove from both tiers, then republish stats. -/
def delete (s : CacheState) (key : String) :
    Except DBError Unit × CacheState :=
  let s1 := { s with memoryCache := mapDelete s.memoryCache key }
  match deleteFromIndexedDB s1.db key with
  | .error err => (.error err, s1)
  | .ok db1 => (.ok (), updateStats { s1 with db := db1 })

/-- `clear()`: empty both tiers, zero the counters, republish stats. -/
def clear (s : CacheState) : Except DBError Unit × CacheState :=
  let s1 := { s with memoryCache := [] }
  match clearIndexedDB s1.db with
  | .error err => (.error err, s1)
  | .ok db1 =>
    (.ok (), updateStats { s1 with db := db1, hitCount := 0, missCount := 0 })

/-- `cleanup()`: drop expired entries from the memory tier, sweep the
durable tier, republish stats. -/
def cleanup (s : CacheState) (now : Nat) :
    Except DBError Unit × CacheState :=
  let s1 := { s with memoryCache := pruneExpired s.memoryCache now }
  match cleanupIndexedDB s1.db now with
  | .error err => (.error err, s1)
  | .ok db1 => (.ok (), updateStats { s1 with db := db1 })

end CacheService

/-- The instance fields as initialised at construction, before the
asynchronous `initializeIndexedDB` callbacks run — and final whenever the
open failed or the startup read never succeeded: empty memory tier, zero
counters, the initial `statsSubject` value. -/
def emptyState (db : Option DBState) : CacheState :=
  { db := db, memoryCache := [], hitCount := 0, missCount := 0,
    stats := { totalEntries := 0, totalSize := 0, hitRate := 0,
               memoryUsage := 0, oldestEntry := 0, newestEntry := 0 } }

/-- The freshly constructed service once `initializeIndexedDB` has
settled at instant `now`: a failed open leaves `this.db` null and the
memory tier empty; a successful open runs `loadMemoryCache`, seeding the
memory tier with the top-20 unexpired durable records by
`accessCount * lastAccessed` — of any size, with no ceiling check. -/
def initState (db : Option DBState) (now : Nat) : CacheState :=
  CacheService.loadMemoryCache (emptyState db) now

/-- One public operation of the cache interface, with its wall-clock
instant. -/
inductive Op where
  | opSet (k : String) (v : JsValue) (ttl : Nat) (ty : String) (now : Nat)
  | opGet (k : String) (now : Nat)
  | opDelete (k : String)
  | opClear
  | opCleanup (now : Nat)

/-- Run one operation, keeping the instance state whether or not the
operation's promise rejected. -/
def runOp (s : CacheState) : Op → CacheState
  | .opSet k v ttl ty now => (CacheService.set s k v ttl ty now).2
  | .opGet k now => (CacheService.get s k now).2
  | .opDelete k => (CacheService.delete s k).2
  | .opClear => (CacheService.clear s).2
  | .opCleanup now => (CacheService.cleanup s now).2

/-- Run a sequence of public operations. -/
def runOps (s : CacheState) : List Op → CacheState
  | [] => s
  | o :: rest => runOps (runOp s o) rest

/-- The durable tier is either absent (`this.db === null`) or operational:
the two modes in which issued requests do not reject. -/
def dbOk : Option DBState → Prop
  | none => True
  | some d => d.failing = false

instance : DecidablePred dbOk := by
  intro db
  cases db with
  | none => exact .isTrue trivial
  | some d => exact inferInstanceAs (Decidable (d.failing = false))

/-- The memory tier's resident size is within the configured ceiling. -/
def memBounded (s : CacheState) : Prop :=
  CacheService.calculateMemoryUsage s.memoryCache ≤
    CacheService.maxMemoryBytes

instance {α β : Type} [DecidableEq α] [DecidableEq β] :
    DecidableEq (Except α β) := by
  intro x y
  cases x with
  | error a =>
    cases y with
    | error b => exact decidable_of_iff (a = b) (by simp)
    | ok b => exact .isFalse (by simp)
  | ok a =>
    cases y with
    | error b => exact .isFalse (by simp)
    | ok b => exact decidable_of_iff (a = b) (by simp)

/-! ## Values of the durable-tier requests on a non-failing database -/

/-- What `getFromIndexedDB` resolves with when the database does not
fail. -/
def dbRead : Option DBState → String → Option CacheEntry
  | none, _ => none
  | some d, k => mapGet d.store k

/-- What `setInIndexedDB` resolves with when the database does not fail. -/
def dbMapSet : Option DBState → CacheEntry → Option DBState
  | none, _ => none
  | some d, e => some { d with store := mapSet d.store e }

/-- What `deleteFromIndexedDB` resolves with when the database does not
fail. -/
def dbMapDelete : Option DBState → String → Option DBState
  | none, _ => none
  | some d, k => some { d with store := mapDelete d.store k }

/-- What `clearIndexedDB` resolves with when the database does not fail. -/
def dbClear : Option DBState → Option DBState
  | none => none
  | some d => some { d with store := [] }

/-- What `cleanupIndexedDB` resolves with when the database does not
fail. -/
def dbPrune : Option DBState → Nat → Option DBState
  | none, _ => none
  | some d, now => some { d with store := pruneExpired d.store now }

/-! ## Statement abbreviations for the claims -/

/-- The promotion-threshold scenario: after the first and after the second
`get` of the key it is still not memory-resident; after the third it is. -/
def promoConcl (s : CacheState) (k : String) (now : Nat) : Prop :=
  mapGet ((CacheService.get s k now).2).memoryCache k = none ∧
  mapGet ((CacheService.get ((CacheService.get s k now).2) k now).2).memoryCache k = none ∧
  ∃ e, mapGet ((CacheService.get ((CacheService.get ((CacheService.get s k now).2) k now).2) k now).2).memoryCache k = some e

/-- What eviction does to an over-ceiling memory tier: the candidate order
is the map's entries stably sorted by ascending `lastAccessed` (ties keep
map insertion order, they are not re-ordered by `accessCount`), the loop
deletes the keys of a prefix of that order, the recomputed usage still
exceeded the ceiling before each of those deletions, entries are only
removed (never altered), and the result is within the ceiling. -/
def evictionSpecProp (m : List CacheEntry) : Prop :=
  (CacheService.sortByLastAccessed m).Pairwise
    (fun a b => a.lastAccessed ≤ b.lastAccessed) ∧
  (∀ t, (CacheService.sortByLastAccessed m).filter (fun x => x.lastAccessed == t) =
    m.filter (fun x => x.lastAccessed == t)) ∧
  (∀ e, e ∈ CacheService.enforceMemoryLimit m → e ∈ m) ∧
  ∃ n, n ≤ (CacheService.sortByLastAccessed m).length ∧
    CacheService.enforceMemoryLimit m =
      CacheService.dropKeys m ((CacheService.sortByLastAccessed m).take n) ∧
    (∀ j, j < n → CacheService.maxMemoryBytes <
      CacheService.calculateMemoryUsage
        (CacheService.dropKeys m ((CacheService.sortByLastAccessed m).take j))) ∧
    CacheService.calculateMemoryUsage (CacheService.enforceMemoryLimit m) ≤
      CacheService.maxMemoryBytes

/-! ## Concrete entries and states for witnesses and counterexamples -/

/-- A small unexpired entry for key `k`. -/
def entLive : CacheEntry :=
  { key := "k", data := .jstr "v", timestamp := 0, expiration := 10,
    accessCount := 0, lastAccessed := 0,
    metadata := { size := 3, type := "analysis", version := "1.0" } }

/-- A small entry for key `k` already expired at instant 10. -/
def entExpired : CacheEntry :=
  { key := "k", data := .jstr "v", timestamp := 0, expiration := 5,
    accessCount := 0, lastAccessed := 0,
    metadata := { size := 3, type := "analysis", version := "1.0" } }

/-- An entry whose recorded size (2 MiB) is over the 1 MiB per-entry
memory threshold. -/
def entBig : CacheEntry :=
  { key := "k", data := .jstr "v", timestamp := 0, expiration := 10,
    accessCount := 0, lastAccessed := 0,
    metadata := { size := 2097152, type := "analysis", version := "1.0" } }

/-- Memory-only service (IndexedDB never opened) holding an expired entry. -/
def sExpired : CacheState := { emptyState none with memoryCache := [entExpired] }

/-- Service with the expired entry present in both tiers. -/
def sExpiredBoth : CacheState :=
  { emptyState (some { store := [entExpired], failing := false }) with memoryCache := [entExpired] }

/-- Service whose only copy of `k` sits in the durable tier. -/
def sDurableOnly : CacheState :=
  emptyState (some { store := [entLive], failing := false })

/-- Service whose durable tier holds an over-threshold entry for `k`. -/
def sBigDurable : CacheState :=
  emptyState (some { store := [entBig], failing := false })

/-- Service whose durable tier is open and empty. -/
def emptyDB : CacheState :=
  initState (some { store := [], failing := false }) 0

/-- Service whose durable tier rejects every issued request. -/
def failS : CacheState := initState (some { store := [], failing := true }) 0

/-- Memory-only service holding one live entry (for the delete scenario). -/
def sDel : CacheState := { emptyState none with memoryCache := [entLive] }

/-- Entries all tied on `lastAccessed` but with strictly decreasing
`accessCount` in map insertion order; each is just under the 1 MiB
per-entry threshold, and 51 of them exceed the 50 MiB ceiling. -/
def exEntry (i : Nat) : CacheEntry :=
  { key := toString i, data := .jnull, timestamp := 0, expiration := 1000,
    accessCount := 50 - i, lastAccessed := 100,
    metadata := { size := 1048575, type := "analysis", version := "1.0" } }

/-- A memory tier of 51 such entries (resident size 53477325 bytes). -/
def exM : List CacheEntry := (List.range 51).map exEntry

/-- Trace for the hit-rate scenario: one `set`, one hit, one miss, then a
`delete` (the next stats-publishing operation). -/
def c7s1 : CacheState :=
  (CacheService.set (initState none 0) "a" (.jstr "x") 100 "analysis" 0).2

/-- After a hit on `a`. -/
def c7s2 : CacheState := (CacheService.get c7s1 "a" 1).2

/-- After a miss on `b`. -/
def c7s3 : CacheState := (CacheService.get c7s2 "b" 1).2

/-- After `delete("b")`, which republishes the stats snapshot. -/
def c7s4 : CacheState := (CacheService.delete c7s3 "b").2

/-- A state whose counters record one hit and one miss. -/
def c7w : CacheState := { emptyState none with hitCount := 1, missCount := 1 }

/-- A 30 MiB unexpired durable record from a previous session (a `set` of
a large value writes to the durable tier only, so such records are
reachable). -/
def entBig30a : CacheEntry :=
  { key := "k1", data := .jstr "v1", timestamp := 0, expiration := 1000000,
    accessCount := 1, lastAccessed := 1,
    metadata := { size := 31457280, type := "analysis", version := "1.0" } }

/-- A second such 30 MiB durable record. -/
def entBig30b : CacheEntry :=
  { key := "k2", data := .jstr "v2", timestamp := 0, expiration := 1000000,
    accessCount := 1, lastAccessed := 1,
    metadata := { size := 31457280, type := "analysis", version := "1.0" } }

/-- The freshly constructed service over that durable store: the startup
seeding loads both records (they are within the top 20), 60 MiB
resident. -/
def sOverSeed : CacheState :=
  initState (some { store := [entBig30a, entBig30b], failing := false }) 5

/-! ## Basic lemmas about the memory-tier map -/

theorem mapGet_key (m : List CacheEntry) (k : String) (e : CacheEntry)
    (h : mapGet m k = some e) : e.key = k := by
  induction m with
  | nil => simp [mapGet] at h
  | cons x rest ih =>
    by_cases hx : x.key = k
    · simp [mapGet, hx] at h
      rw [← h]; exact hx
    · simp [mapGet, hx] at h
      exact ih h

theorem mapGet_mapSet_self (m : List CacheEntry) (e : CacheEntry) :
    mapGet (mapSet m e) e.key = some e := by
  induction m with
  | nil => simp [mapSet, mapGet]
  | cons x rest ih =>
    by_cases hx : x.key = e.key
    · simp [mapSet, hx, mapGet]
    · simp [mapSet, hx, mapGet, ih]

theorem mapSet_of_not_found {m : List CacheEntry} {e : CacheEntry}
    (h : mapGet m e.key = none) : mapSet m e = m ++ [e] := by
  induction m with
  | nil => simp [mapSet]
  | cons x rest ih =>
    by_cases hx : x.key = e.key
    · simp [mapGet, hx] at h
    · simp [mapGet, hx] at h
      simp [mapSet, hx, ih h]

theorem mapGet_append_of_none {m : List CacheEntry} {k : String}
    (h : mapGet m k = none) (l : List CacheEntry) :
    mapGet (m ++ l) k = mapGet l k := by
  induction m with
  | nil => simp
  | cons x rest ih =>
    by_cases hx : x.key = k
    · simp [mapGet, hx] at h
    · simp [mapGet, hx] at h ⊢
      exact ih h

theorem mapDelete_idem (m : List CacheEntry) (k : String) :
    mapDelete (mapDelete m k) k = mapDelete m k := by
  induction m with
  | nil => rfl
  | cons x rest ih =>
    by_cases hx : x.key = k
    · simp [mapDelete, hx, ih]
    · simp [mapDelete, hx, ih]

theorem mem_of_mem_mapDelete {m : List CacheEntry} {k : String}
    {e : CacheEntry} (h : e ∈ mapDelete m k) : e ∈ m ∧ e.key ≠ k := by
  induction m with
  | nil => simp [mapDelete] at h
  | cons x rest ih =>
    by_cases hx : x.key = k
    · simp [mapDelete, hx] at h
      rcases ih h with ⟨h1, h2⟩
      exact ⟨List.mem_cons_of_mem _ h1, h2⟩
    · simp [mapDelete, hx] at h
      rcases h with h | h
      · exact ⟨by simp [h], by rw [h]; exact hx⟩
      · rcases ih h with ⟨h1, h2⟩
        exact ⟨List.mem_cons_of_mem _ h1, h2⟩

/-! ## Lemmas about resident size -/

namespace CacheService

theorem usage_append (m l : List CacheEntry) :
    calculateMemoryUsage (m ++ l) =
      calculateMemoryUsage m + calculateMemoryUsage l := by
  induction m with
  | nil => simp [calculateMemoryUsage]
  | cons x rest ih => simp [calculateMemoryUsage, ih]; omega

theorem usage_mapDelete_le (m : List CacheEntry) (k : String) :
    calculateMemoryUsage (mapDelete m k) ≤ calculateMemoryUsage m := by
  induction m with
  | nil => simp [mapDelete]
  | cons x rest ih =>
    by_cases hx : x.key = k
    · simp only [mapDelete, if_pos hx, calculateMemoryUsage]
      omega
    · simp only [mapDelete, if_neg hx, calculateMemoryUsage]
      omega

theorem usage_pruneExpired_le (m : List CacheEntry) (now : Nat) :
    calculateMemoryUsage (pruneExpired m now) ≤ calculateMemoryUsage m := by
  induction m with
  | nil => simp [pruneExpired]
  | cons x rest ih =>
    by_cases hx : x.expiration ≤ now
    · simp only [pruneExpired, if_pos hx, calculateMemoryUsage]
      omega
    · simp only [pruneExpired, if_neg hx, calculateMemoryUsage]
      omega

theorem usage_mapSet_le (m : List CacheEntry) (e : CacheEntry) :
    calculateMemoryUsage (mapSet m e) ≤
      calculateMemoryUsage m + e.metadata.size := by
  induction m with
  | nil => simp [mapSet, calculateMemoryUsage]
  | cons x rest ih =>
    by_cases hx : x.key = e.key
    · simp only [mapSet, if_pos hx, calculateMemoryUsage]
      omega
    · simp only [mapSet, if_neg hx, calculateMemoryUsage]
      omega

theorem usage_mapSet_same (m : List CacheEntry) (k : String)
    (e old : CacheEntry) (hg : mapGet m k = some old) (hk : e.key = k)
    (hs : e.metadata.size = old.metadata.size) :
    calculateMemoryUsage (mapSet m e) = calculateMemoryUsage m := by
  induction m with
  | nil => simp [mapGet] at hg
  | cons x rest ih =>
    by_cases hx : x.key = k
    · have hxe : x.key = e.key := by rw [hk, hx]
      simp only [mapGet, if_pos hx, Option.some.injEq] at hg
      simp only [mapSet, if_pos hxe, calculateMemoryUsage]
      rw [hs, hg]
    · have hxe : ¬ x.key = e.key := by rw [hk]; exact hx
      simp only [mapGet, if_neg hx] at hg
      simp only [mapSet, if_neg hxe, calculateMemoryUsage, ih hg]

/-! ## Lemmas about the eviction sort -/

theorem mem_insertByLastAccessed {e x : CacheEntry} {l : List CacheEntry} :
    x ∈ insertByLastAccessed e l ↔ x = e ∨ x ∈ l := by
  induction l with
  | nil => simp [insertByLastAccessed]
  | cons y ys ih =>
    by_cases hy : e.lastAccessed ≤ y.lastAccessed
    · simp [insertByLastAccessed, hy]
    · simp [insertByLastAccessed, hy, ih]
      tauto

theorem mem_sortByLastAccessed {x : CacheEntry} {m : List CacheEntry} :
    x ∈ sortByLastAccessed m ↔ x ∈ m := by
  induction m with
  | nil => simp [sortByLastAccessed]
  | cons y ys ih =>
    simp [sortByLastAccessed, mem_insertByLastAccessed, ih]

theorem sorted_insertByLastAccessed {e : CacheEntry} {l : List CacheEntry}
    (h : l.Pairwise (fun a b => a.lastAccessed ≤ b.lastAccessed)) :
    (insertByLastAccessed e l).Pairwise
      (fun a b => a.lastAccessed ≤ b.lastAccessed) := by
  induction l with
  | nil => simp [insertByLastAccessed]
  | cons y ys ih =>
    rcases List.pairwise_cons.1 h with ⟨hy, hys⟩
    by_cases hle : e.lastAccessed ≤ y.lastAccessed
    · simp only [insertByLastAccessed, if_pos hle]
      refine List.pairwise_cons.2 ⟨?_, h⟩
      intro z hz
      rcases List.mem_cons.1 hz with hz | hz
      · rw [hz]; exact hle
      · exact le_trans hle (hy z hz)
    · simp only [insertByLastAccessed, if_neg hle]
      refine List.pairwise_cons.2 ⟨?_, ih hys⟩
      intro z hz
      rcases mem_insertByLastAccessed.1 hz with hz | hz
      · rw [hz]; omega
      · exact hy z hz

theorem sorted_sortByLastAccessed (m : List CacheEntry) :
    (sortByLastAccessed m).Pairwise
      (fun a b => a.lastAccessed ≤ b.lastAccessed) := by
  induction m with
  | nil => simp [sortByLastAccessed]
  | cons x xs ih =>
    exact sorted_insertByLastAccessed ih

theorem filter_insertByLastAccessed_eq (e : CacheEntry) (l : List CacheEntry)
    (t : Nat) (he : e.lastAccessed = t) :
    (insertByLastAccessed e l).filter (fun x => x.lastAccessed == t) =
      e :: l.filter (fun x => x.lastAccessed == t) := by
  induction l with
  | nil =>
    simp only [insertByLastAccessed]
    simp [List.filter_cons, he]
  | cons y ys ih =>
    by_cases hle : e.lastAccessed ≤ y.lastAccessed
    · simp only [insertByLastAccessed, if_pos hle]
      simp [List.filter_cons, he]
    · have hy : ¬ y.lastAccessed = t := by omega
      simp only [insertByLastAccessed, if_neg hle]
      simp only [List.filter_cons, ih]
      simp [hy]

theorem filter_insertByLastAccessed_ne (e : CacheEntry) (l : List CacheEntry)
    (t : Nat) (he : ¬ e.lastAccessed = t) :
    (insertByLastAccessed e l).filter (fun x => x.lastAccessed == t) =
      l.filter (fun x => x.lastAccessed == t) := by
  induction l with
  | nil =>
    simp only [insertByLastAccessed]
    simp [List.filter_cons, he]
  | cons y ys ih =>
    by_cases hle : e.lastAccessed ≤ y.lastAccessed
    · simp only [insertByLastAccessed, if_pos hle]
      simp [List.filter_cons, he]
    · simp only [insertByLastAccessed, if_neg hle]
      simp only [List.filter_cons, ih]

/-- Stability of the eviction sort: for each value of `lastAccessed`, the
tied entries keep their relative order from the memory map. -/
theorem sortByLastAccessed_stable (m : List CacheEntry) (t : Nat) :
    (sortByLastAccessed m).filter (fun x => x.lastAccessed == t) =
      m.filter (fun x => x.lastAccessed == t) := by
  induction m with
  | nil => rfl
  | cons x xs ih =>
    by_cases hx : x.lastAccessed = t
    · simp only [sortByLastAccessed]
      rw [filter_insertByLastAccessed_eq x _ t hx, ih]
      simp [List.filter_cons, hx]
    · simp only [sortByLastAccessed]
      rw [filter_insertByLastAccessed_ne x _ t hx, ih]
      simp [List.filter_cons, hx]

/-! ## Lemmas about the eviction loop and the memory ceiling -/

theorem evictLoop_le {q m : List CacheEntry}
    (hsub : ∀ e ∈ m, ∃ x ∈ q, x.key = e.key) :
    calculateMemoryUsage (evictLoop m q) ≤ maxMemoryBytes := by
  induction q generalizing m with
  | nil =>
    have hm : m = [] := by
      cases m with
      | nil => rfl
      | cons e rest =>
        rcases hsub e (by simp) with ⟨x, hx, _⟩
        simp at hx
    rw [hm]
    simp [evictLoop, calculateMemoryUsage]
  | cons e rest ih =>
    by_cases hcond : maxMemoryBytes < calculateMemoryUsage m
    · simp only [evictLoop, if_pos hcond]
      refine ih ?_
      intro y hy
      rcases mem_of_mem_mapDelete hy with ⟨hy1, hy2⟩
      rcases hsub y hy1 with ⟨x, hx, hxk⟩
      rcases List.mem_cons.1 hx with hx | hx
      · exfalso; apply hy2; rw [← hxk, hx]
      · exact ⟨x, hx, hxk⟩
    · simp only [evictLoop, if_neg hcond]
      omega

theorem usage_enforceMemoryLimit_le (m : List CacheEntry) :
    calculateMemoryUsage (enforceMemoryLimit m) ≤ maxMemoryBytes := by
  by_cases hcond : maxMemoryBytes < calculateMemoryUsage m
  · simp only [enforceMemoryLimit, if_pos hcond]
    refine evictLoop_le ?_
    intro e he
    exact ⟨e, mem_sortByLastAccessed.2 he, rfl⟩
  · simp only [enforceMemoryLimit, if_neg hcond]
    omega

theorem enforceMemoryLimit_of_le {m : List CacheEntry}
    (h : calculateMemoryUsage m ≤ maxMemoryBytes) :
    enforceMemoryLimit m = m := by
  have : ¬ maxMemoryBytes < calculateMemoryUsage m := by omega
  simp [enforceMemoryLimit, this]

/-! ## Lemmas about stats publication -/

theorem updateStats_memoryCache (s : CacheState) :
    (updateStats s).memoryCache = s.memoryCache := rfl

theorem updateStats_db (s : CacheState) : (updateStats s).db = s.db := rfl

theorem updateStats_hitCount (s : CacheState) :
    (updateStats s).hitCount = s.hitCount := rfl

theorem updateStats_missCount (s : CacheState) :
    (updateStats s).missCount = s.missCount := rfl

theorem updateStats_idem (s : CacheState) :
    updateStats (updateStats s) = updateStats s := rfl

/-! ## A prefix characterisation of the eviction loop -/

/-- The eviction loop deletes the keys of some prefix of the candidate
queue; before each deletion of that prefix the recomputed usage still
exceeded the ceiling, and the loop ran on only until the queue was exhausted
or the usage came under the ceiling. -/
theorem evictLoop_spec (q m : List CacheEntry) :
    ∃ n, n ≤ q.length ∧ evictLoop m q = dropKeys m (q.take n) ∧
      (∀ j < n,
        maxMemoryBytes < calculateMemoryUsage (dropKeys m (q.take j))) ∧
      (calculateMemoryUsage (evictLoop m q) ≤ maxMemoryBytes ∨
        n = q.length) := by
  induction q generalizing m with
  | nil =>
    refine ⟨0, by simp, by simp [evictLoop, dropKeys], ?_, Or.inr rfl⟩
    intro j hj
    omega
  | cons e rest ih =>
    by_cases hcond : maxMemoryBytes < calculateMemoryUsage m
    · rcases ih (mapDelete m e.key) with ⟨n, hn, heq, hj, hlast⟩
      refine ⟨n + 1, by simpa using hn, ?_, ?_, ?_⟩
      · simp only [evictLoop, if_pos hcond, List.take_succ_cons, dropKeys]
        exact heq
      · intro j hjlt
        cases j with
        | zero => simpa [dropKeys] using hcond
        | succ j' =>
          have := hj j' (by omega)
          simpa [List.take_succ_cons, dropKeys] using this
      · rcases hlast with hlast | hlast
        · left
          simpa [evictLoop, if_pos hcond] using hlast
        · right
          simp [hlast]
    · refine ⟨0, by simp, by simp [evictLoop, hcond, dropKeys], ?_, ?_⟩
      · intro j hj
        omega
      · left
        simp only [evictLoop, if_neg hcond]
        omega

/-! ## Shape of the memory tier after each public operation -/

theorem set_snd_memoryCache (s : CacheState) (k : String) (v : JsValue)
    (ttl : Nat) (ty : String) (now : Nat) :
    ((set s k v ttl ty now).2).memoryCache = s.memoryCache ∨
    ∃ e, ((set s k v ttl ty now).2).memoryCache =
      enforceMemoryLimit (mapSet s.memoryCache e) := by
  unfold set
  dsimp only
  split
  · split
    · right; exact ⟨_, rfl⟩
    · left; rfl
  · split
    · right; exact ⟨_, rfl⟩
    · left; rfl

theorem get_snd_memoryCache (s : CacheState) (k : String) (now : Nat) :
    ((get s k now).2).memoryCache = s.memoryCache ∨
    (∃ entry, mapGet s.memoryCache k = some entry ∧
      ((get s k now).2).memoryCache = mapSet s.memoryCache (bump entry now)) ∨
    (∃ e, ((get s k now).2).memoryCache =
      enforceMemoryLimit (mapSet s.memoryCache e)) := by
  have htd : ((tryDurable s k now).2).memoryCache = s.memoryCache ∨
      (∃ e, ((tryDurable s k now).2).memoryCache =
        enforceMemoryLimit (mapSet s.memoryCache e)) := by
    unfold tryDurable
    rcases hdb : getFromIndexedDB s.db k with err | dbe
    · left; rfl
    · rcases dbe with _ | e
      · left; rfl
      · dsimp only
        split
        · split
          · split
            · right; exact ⟨_, rfl⟩
            · left; rfl
          · split
            · right; exact ⟨_, rfl⟩
            · left; rfl
        · left; rfl
  unfold get
  rcases hm : mapGet s.memoryCache k with _ | entry
  · rcases htd with h | h
    · left; exact h
    · right; right; exact h
  · dsimp only
    split
    · right; left
      exact ⟨entry, rfl, rfl⟩
    · rcases htd with h | h
      · left; exact h
      · right; right; exact h

theorem delete_snd_memoryCache (s : CacheState) (k : String) :
    ((delete s k).2).memoryCache = mapDelete s.memoryCache k := by
  unfold delete
  dsimp only
  split
  · rfl
  · rfl

theorem clear_snd_memoryCache (s : CacheState) :
    ((clear s).2).memoryCache = [] := by
  unfold clear
  dsimp only
  split
  · rfl
  · rfl

theorem cleanup_snd_memoryCache (s : CacheState) (now : Nat) :
    ((cleanup s now).2).memoryCache = pruneExpired s.memoryCache now := by
  unfold cleanup
  dsimp only
  split
  · rfl
  · rfl

end CacheService

/-! ## The memory-ceiling invariant -/

theorem memBounded_runOp {s : CacheState} (h : memBounded s) (o : Op) :
    memBounded (runOp s o) := by
  cases o with
  | opSet k v ttl ty now =>
    have h3 := CacheService.set_snd_memoryCache s k v ttl ty now
    simp only [memBounded, runOp] at h ⊢
    rcases h3 with heq | h3
    · rw [heq]; exact h
    · obtain ⟨e, heq⟩ := h3
      rw [heq]
      exact CacheService.usage_enforceMemoryLimit_le _
  | opGet k now =>
    have h3 := CacheService.get_snd_memoryCache s k now
    simp only [memBounded, runOp] at h ⊢
    rcases h3 with heq | h3
    · rw [heq]; exact h
    · rcases h3 with h3 | h3
      · obtain ⟨entry, hfound, heq⟩ := h3
        rw [heq, CacheService.usage_mapSet_same s.memoryCache k (CacheService.bump entry now) entry hfound (mapGet_key s.memoryCache k entry hfound) rfl]
        exact h
      · obtain ⟨e, heq⟩ := h3
        rw [heq]
        exact CacheService.usage_enforceMemoryLimit_le _
  | opDelete k =>
    simp only [memBounded, runOp] at h ⊢
    rw [CacheService.delete_snd_memoryCache]
    exact le_trans (CacheService.usage_mapDelete_le _ _) h
  | opClear =>
    simp only [memBounded, runOp] at h ⊢
    rw [CacheService.clear_snd_memoryCache]
    simp [CacheService.calculateMemoryUsage]
  | opCleanup now =>
    simp only [memBounded, runOp] at h ⊢
    rw [CacheService.cleanup_snd_memoryCache]
    exact le_trans (CacheService.usage_pruneExpired_le _ _) h

theorem memBounded_runOps {s : CacheState} (h : memBounded s)
    (ops : List Op) : memBounded (runOps s ops) := by
  induction ops generalizing s with
  | nil => exact h
  | cons o rest ih => exact ih (memBounded_runOp h o)

/-! ## The shared miss path of `get` -/

theorem get_miss_spec (s : CacheState) (k : String) (now : Nat)
    (hmem : ∀ e, mapGet s.memoryCache k = some e → e.expiration ≤ now)
    (hdb : CacheService.getFromIndexedDB s.db k = .ok none ∨
      ∃ e, CacheService.getFromIndexedDB s.db k = .ok (some e) ∧
        e.expiration ≤ now) :
    CacheService.get s k now =
      (.ok .jnull, { s with missCount := s.missCount + 1 }) := by
  have htd : CacheService.tryDurable s k now =
      (.ok .jnull, { s with missCount := s.missCount + 1 }) := by
    unfold CacheService.tryDurable
    rcases hdb with hdb | ⟨e, hdb, hexp⟩
    · rw [hdb]
    · rw [hdb]
      have hnl : ¬ now < e.expiration := by omega
      simp [hnl]
  unfold CacheService.get
  rcases hm : mapGet s.memoryCache k with _ | entry
  · exact htd
  · have hexp := hmem entry hm
    have hnl : ¬ now < entry.expiration := by omega
    simp [hnl, htd]

/-! ## What each operation computes when the durable tier does not fail -/

namespace CacheService

theorem getFromIndexedDB_ok (db : Option DBState) (k : String)
    (h : dbOk db) : getFromIndexedDB db k = .ok (dbRead db k) := by
  cases db with
  | none => rfl
  | some d =>
    simp only [dbOk] at h
    simp [getFromIndexedDB, dbRead, h]

theorem setInIndexedDB_ok (db : Option DBState) (e : CacheEntry)
    (h : dbOk db) : setInIndexedDB db e = .ok (dbMapSet db e) := by
  cases db with
  | none => rfl
  | some d =>
    simp only [dbOk] at h
    simp [setInIndexedDB, dbMapSet, h]

theorem deleteFromIndexedDB_ok (db : Option DBState) (k : String)
    (h : dbOk db) : deleteFromIndexedDB db k = .ok (dbMapDelete db k) := by
  cases db with
  | none => rfl
  | some d =>
    simp only [dbOk] at h
    simp [deleteFromIndexedDB, dbMapDelete, h]

theorem clearIndexedDB_ok (db : Option DBState) (h : dbOk db) :
    clearIndexedDB db = .ok (dbClear db) := by
  cases db with
  | none => rfl
  | some d =>
    simp only [dbOk] at h
    simp [clearIndexedDB, dbClear, h]

theorem cleanupIndexedDB_ok (db : Option DBState) (now : Nat) (h : dbOk db) :
    cleanupIndexedDB db now = .ok (dbPrune db now) := by
  cases db with
  | none => rfl
  | some d =>
    simp only [dbOk] at h
    simp [cleanupIndexedDB, dbPrune, h]

/-- The published `hitRate` field, as the source computes it. -/
theorem updateStats_hitRate (s : CacheState) :
    (updateStats s).stats.hitRate =
      if 0 < s.hitCount + s.missCount then
        ((s.hitCount : ℚ) / ((s.hitCount + s.missCount : Nat) : ℚ)) * 100
      else 0 := rfl

theorem delete_ok (s : CacheState) (k : String) (h : dbOk s.db) :
    delete s k = (.ok (), updateStats { s with memoryCache := mapDelete s.memoryCache k, db := dbMapDelete s.db k }) := by
  unfold delete
  dsimp only
  rw [deleteFromIndexedDB_ok s.db k h]

theorem clear_ok (s : CacheState) (h : dbOk s.db) :
    clear s = (.ok (), updateStats { s with memoryCache := [], db := dbClear s.db, hitCount := 0, missCount := 0 }) := by
  unfold clear
  dsimp only
  rw [clearIndexedDB_ok s.db h]

theorem cleanup_ok (s : CacheState) (now : Nat) (h : dbOk s.db) :
    cleanup s now = (.ok (), updateStats { s with memoryCache := pruneExpired s.memoryCache now, db := dbPrune s.db now }) := by
  unfold cleanup
  dsimp only
  rw [cleanupIndexedDB_ok s.db now h]

theorem set_ok (s : CacheState) (key : String) (v : JsValue) (ttl : Nat)
    (ty : String) (now : Nat) (h : dbOk s.db) :
    set s key v ttl ty now = (.ok (), updateStats { (if (buildEntry key v ttl ty now).metadata.size < 1024 * 1024 then { s with memoryCache := enforceMemoryLimit (mapSet s.memoryCache (buildEntry key v ttl ty now)) } else s) with db := dbMapSet s.db (buildEntry key v ttl ty now) }) := by
  unfold set
  dsimp only
  by_cases hsz : (buildEntry key v ttl ty now).metadata.size < 1024 * 1024
  · simp only [if_pos hsz]
    rw [setInIndexedDB_ok s.db (buildEntry key v ttl ty now) h]
  · simp only [if_neg hsz]
    rw [setInIndexedDB_ok s.db (buildEntry key v ttl ty now) h]

theorem get_of_mem_none (s : CacheState) (k : String) (now : Nat)
    (hm : mapGet s.memoryCache k = none) :
    get s k now = tryDurable s k now := by
  unfold get
  rw [hm]

theorem get_hit (s : CacheState) (k : String) (now : Nat)
    (entry : CacheEntry) (hfound : mapGet s.memoryCache k = some entry)
    (hlive : now < entry.expiration) :
    get s k now = (.ok entry.data, { s with memoryCache := mapSet s.memoryCache (bump entry now), hitCount := s.hitCount + 1 }) := by
  unfold get
  rw [hfound]
  dsimp only
  rw [if_pos hlive]

theorem get_of_mem_expired (s : CacheState) (k : String) (now : Nat)
    (entry : CacheEntry) (hfound : mapGet s.memoryCache k = some entry)
    (hexp : ¬ now < entry.expiration) :
    get s k now = tryDurable s k now := by
  unfold get
  rw [hfound]
  dsimp only
  rw [if_neg hexp]

theorem tryDurable_dbnone (s : CacheState) (k : String) (now : Nat)
    (hdb : s.db = none) :
    tryDurable s k now = (.ok .jnull, { s with missCount := s.missCount + 1 }) := by
  unfold tryDurable
  rw [hdb]
  exact rfl

theorem tryDurable_found_expired (s : CacheState) (k : String) (now : Nat)
    (entry : CacheEntry) (hok : dbOk s.db)
    (hread : dbRead s.db k = some entry)
    (hexp : ¬ now < entry.expiration) :
    tryDurable s k now = (.ok .jnull, { s with missCount := s.missCount + 1 }) := by
  unfold tryDurable
  rw [getFromIndexedDB_ok s.db k hok, hread]
  dsimp only
  rw [if_neg hexp]

theorem mem_of_mem_evictLoop {q m : List CacheEntry} {e : CacheEntry}
    (h : e ∈ evictLoop m q) : e ∈ m := by
  induction q generalizing m with
  | nil => exact h
  | cons x rest ih =>
    by_cases hc : maxMemoryBytes < calculateMemoryUsage m
    · unfold evictLoop at h
      rw [if_pos hc] at h
      exact (mem_of_mem_mapDelete (ih h)).1
    · unfold evictLoop at h
      rw [if_neg hc] at h
      exact h

theorem tryDurable_hit_nopromo (s : CacheState) (k : String) (now : Nat)
    (entry : CacheEntry) (hok : dbOk s.db)
    (hfound : dbRead s.db k = some entry)
    (hlive : now < entry.expiration)
    (hnop : ¬ (2 < entry.accessCount + 1 ∧ entry.metadata.size < 1024 * 1024)) :
    tryDurable s k now = (.ok entry.data, { s with db := dbMapSet s.db (bump entry now), hitCount := s.hitCount + 1 }) := by
  unfold tryDurable
  rw [getFromIndexedDB_ok s.db k hok, hfound]
  dsimp only
  rw [if_pos hlive, if_neg (by simpa [bump] using hnop)]
  rw [setInIndexedDB_ok s.db _ hok]

theorem tryDurable_hit_promo (s : CacheState) (k : String) (now : Nat)
    (entry : CacheEntry) (hok : dbOk s.db)
    (hfound : dbRead s.db k = some entry)
    (hlive : now < entry.expiration)
    (hpro : 2 < entry.accessCount + 1 ∧ entry.metadata.size < 1024 * 1024) :
    tryDurable s k now = (.ok entry.data, { s with memoryCache := enforceMemoryLimit (mapSet s.memoryCache (bump entry now)), db := dbMapSet s.db (bump entry now), hitCount := s.hitCount + 1 }) := by
  unfold tryDurable
  rw [getFromIndexedDB_ok s.db k hok, hfound]
  dsimp only
  rw [if_pos hlive, if_pos (by simpa [bump] using hpro)]
  rw [setInIndexedDB_ok _ _ hok]

theorem tryDurable_hit_fst (s : CacheState) (k : String) (now : Nat)
    (entry : CacheEntry) (hok : dbOk s.db)
    (hfound : dbRead s.db k = some entry)
    (hlive : now < entry.expiration) :
    (tryDurable s k now).1 = .ok entry.data := by
  by_cases hp : 2 < entry.accessCount + 1 ∧ entry.metadata.size < 1024 * 1024
  · rw [tryDurable_hit_promo s k now entry hok hfound hlive hp]
  · rw [tryDurable_hit_nopromo s k now entry hok hfound hlive hp]

theorem mem_of_mem_dropKeys {q m : List CacheEntry} {e : CacheEntry}
    (h : e ∈ dropKeys m q) : e ∈ m := by
  induction q generalizing m with
  | nil => exact h
  | cons x rest ih =>
    have := ih (m := mapDelete m x.key) h
    exact (mem_of_mem_mapDelete this).1

/-- `updateStats` ignores the previously published snapshot, so it is
determined by the other four fields. -/
theorem updateStats_congr (a b : CacheState) (hdb : a.db = b.db)
    (hmem : a.memoryCache = b.memoryCache) (hh : a.hitCount = b.hitCount)
    (hm : a.missCount = b.missCount) : updateStats a = updateStats b := by
  cases a with
  | mk adb amem ah am ast =>
    cases b with
    | mk bdb bmem bh bm bst =>
      dsimp at hdb hmem hh hm
      subst hdb
      subst hmem
      subst hh
      subst hm
      rfl

end CacheService

theorem dbOk_dbMapSet {db : Option DBState} {e : CacheEntry} (h : dbOk db) :
    dbOk (dbMapSet db e) := by
  cases db with
  | none => trivial
  | some d => exact h

theorem dbOk_dbMapDelete {db : Option DBState} {k : String} (h : dbOk db) :
    dbOk (dbMapDelete db k) := by
  cases db with
  | none => trivial
  | some d => exact h

theorem dbOk_dbClear {db : Option DBState} (h : dbOk db) :
    dbOk (dbClear db) := by
  cases db with
  | none => trivial
  | some d => exact h

theorem dbOk_dbPrune {db : Option DBState} {now : Nat} (h : dbOk db) :
    dbOk (dbPrune db now) := by
  cases db with
  | none => trivial
  | some d => exact h

theorem dbMapDelete_idem (db : Option DBState) (k : String) :
    dbMapDelete (dbMapDelete db k) k = dbMapDelete db k := by
  cases db with
  | none => rfl
  | some d => simp [dbMapDelete, mapDelete_idem]

/-! ## Claim C3 -/

/-- Counterexample to C3 as stated: the constructor's `loadMemoryCache`
seeds up to 20 unexpired durable records of any size into the memory tier
with no ceiling check, so a fresh service over a durable store holding
two 30 MiB records starts with 60 MiB resident; a subsequent successful
`get` completes with the resident size still above the 50 MiB ceiling. -/
theorem c3_counterexample :
    50 * 1024 * 1024 < CacheService.calculateMemoryUsage sOverSeed.memoryCache ∧
    (CacheService.get sOverSeed "k1" 5).1 = .ok (.jstr "v1") ∧
    50 * 1024 * 1024 < CacheService.calculateMemoryUsage (runOps sOverSeed [Op.opGet "k1" 5]).memoryCache := by
  decide

/-- Claim C3 (amended): the public operations themselves do maintain the
ceiling — whenever the freshly constructed service starts with its
resident size at or below 50 MiB (as it does when the durable store is
absent, empty, or its seeded top-20 records fit the ceiling), after every
operation of every subsequent sequence the sum of `metadata.size` over
the memory-resident entries is at most 50 MiB.  Only the startup seeding
can exceed it. -/
theorem c3_memory_ceiling_amended (db0 : Option DBState) (t0 : Nat)
    (ops : List Op)
    (hseed : CacheService.calculateMemoryUsage
      (initState db0 t0).memoryCache ≤ 50 * 1024 * 1024) :
    CacheService.calculateMemoryUsage
      (runOps (initState db0 t0) ops).memoryCache ≤ 50 * 1024 * 1024 :=
  memBounded_runOps hseed ops

/-- Witness for C3 (amended): a fresh service over an empty durable store,
running a `set` and a `get`. -/
theorem c3_memory_ceiling_witness :
    CacheService.calculateMemoryUsage (runOps (initState (some { store := [], failing := false }) 0) [Op.opSet "k" (.jstr "v") 100 "analysis" 0, Op.opGet "k" 1]).memoryCache ≤ 50 * 1024 * 1024 :=
  c3_memory_ceiling_amended (some { store := [], failing := false }) 0
    [Op.opSet "k" (.jstr "v") 100 "analysis" 0, Op.opGet "k" 1] (by decide)

/-! ## Claim C2 -/

/-- Claim C2: with the durable tier absent or operational, if a key is
stored (in the memory tier, the durable tier, or both) and every stored
copy has `expiration <= now`, then `get` returns the absent sentinel
`null` and records a miss (the hit counter is untouched), even though the
entries are still physically present. -/
theorem c2_expired_get_misses (s : CacheState) (k : String) (now : Nat)
    (hok : dbOk s.db)
    (hstored : (∃ e, mapGet s.memoryCache k = some e) ∨
      (∃ d e, s.db = some d ∧ mapGet d.store k = some e))
    (hmem : ∀ e, mapGet s.memoryCache k = some e → e.expiration ≤ now)
    (hdb : ∀ d e, s.db = some d → mapGet d.store k = some e →
      e.expiration ≤ now) :
    (CacheService.get s k now).1 = .ok .jnull ∧
    (CacheService.get s k now).2.missCount = s.missCount + 1 ∧
    (CacheService.get s k now).2.hitCount = s.hitCount := by
  have hread : CacheService.getFromIndexedDB s.db k = .ok none ∨
      ∃ e, CacheService.getFromIndexedDB s.db k = .ok (some e) ∧
        e.expiration ≤ now := by
    cases hdbv : s.db with
    | none => exact Or.inl rfl
    | some d =>
      have hf : dbOk (some d) := by rw [← hdbv]; exact hok
      rcases hg : mapGet d.store k with _ | e
      · left
        rw [CacheService.getFromIndexedDB_ok _ _ hf]
        simp [dbRead, hg]
      · right
        refine ⟨e, ?_, hdb d e hdbv hg⟩
        rw [CacheService.getFromIndexedDB_ok _ _ hf]
        simp [dbRead, hg]
  have h := get_miss_spec s k now hmem hread
  rw [h]
  exact ⟨rfl, rfl, rfl⟩

/-- Witness for C2: a concrete expired memory-resident entry. -/
theorem c2_expired_get_misses_witness :
    (CacheService.get sExpired "k" 10).1 = .ok .jnull ∧
    (CacheService.get sExpired "k" 10).2.missCount = sExpired.missCount + 1 ∧
    (CacheService.get sExpired "k" 10).2.hitCount = sExpired.hitCount :=
  c2_expired_get_misses sExpired "k" 10 (by decide)
    (Or.inl ⟨entExpired, by decide⟩)
    (fun e he => by
      have h0 : mapGet sExpired.memoryCache "k" = some entExpired := by decide
      rw [h0] at he
      rw [← Option.some.inj he]
      decide)
    (fun d e hd he =>
      Option.noConfusion (show (none : Option DBState) = some d from hd))

/-! ## Claim C9 -/

/-- Claim C9: when a `delete(key)` call succeeds, repeating it raises no
error and leaves the whole observable state (both tiers, counters and the
published stats snapshot) exactly as after the first call; deleting an
absent key is likewise not an error. -/
theorem c9_delete_idempotent (s : CacheState) (k : String) (s1 : CacheState)
    (h : CacheService.delete s k = (.ok (), s1)) :
    CacheService.delete s1 k = (.ok (), s1) := by
  have hok : dbOk s.db := by
    cases hdb : s.db with
    | none => trivial
    | some d =>
      cases hf : d.failing with
      | false => exact hf
      | true =>
        exfalso
        have herr : CacheService.deleteFromIndexedDB s.db k = .error .mk := by
          rw [hdb]
          simp [CacheService.deleteFromIndexedDB, hf]
        unfold CacheService.delete at h
        dsimp only at h
        rw [herr] at h
        simp at h
  rw [CacheService.delete_ok s k hok] at h
  have hs1 : s1 = CacheService.updateStats { s with memoryCache := mapDelete s.memoryCache k, db := dbMapDelete s.db k } :=
    (congrArg Prod.snd h).symm
  subst hs1
  have hok1 : dbOk (CacheService.updateStats { s with memoryCache := mapDelete s.memoryCache k, db := dbMapDelete s.db k }).db := by
    rw [CacheService.updateStats_db]
    exact dbOk_dbMapDelete hok
  rw [CacheService.delete_ok _ k hok1]
  refine congrArg (Prod.mk (Except.ok ())) ?_
  refine CacheService.updateStats_congr _ _ ?_ ?_ rfl rfl
  · rw [CacheService.updateStats_db]
    exact dbMapDelete_idem s.db k
  · rw [CacheService.updateStats_memoryCache]
    exact mapDelete_idem s.memoryCache k

/-- Witness for C9: deleting `k` twice from a concrete one-entry cache. -/
theorem c9_delete_idempotent_witness :
    CacheService.delete (initState none 0) "k" = (.ok (), initState none 0) :=
  c9_delete_idempotent sDel "k" (initState none 0) (by rfl)

/-! ## Claim C8 -/

/-- `cleanup`'s pruning keeps exactly the unexpired entries. -/
theorem mem_pruneExpired (m : List CacheEntry) (now : Nat) (e : CacheEntry) :
    e ∈ pruneExpired m now ↔ e ∈ m ∧ now < e.expiration := by
  induction m with
  | nil => simp [pruneExpired]
  | cons x rest ih =>
    by_cases hx : x.expiration ≤ now
    · simp only [pruneExpired, if_pos hx, ih, List.mem_cons]
      constructor
      · rintro ⟨he, hlt⟩
        exact ⟨Or.inr he, hlt⟩
      · rintro ⟨he | he, hlt⟩
        · exfalso
          rw [he] at hlt
          omega
        · exact ⟨he, hlt⟩
    · simp only [pruneExpired, if_neg hx, List.mem_cons, ih]
      constructor
      · rintro (he | ⟨he, hlt⟩)
        · refine ⟨Or.inl he, ?_⟩
          rw [he]
          omega
        · exact ⟨Or.inr he, hlt⟩
      · rintro ⟨he | he, hlt⟩
        · exact Or.inl he
        · exact Or.inr ⟨he, hlt⟩

/-- Counterexample to C8 as stated: `get` finds the expired entry for `k`
in the memory tier, records a miss and returns absent, but does NOT delete
the expired entry from the tier — it is still resident afterwards. -/
theorem c8_counterexample :
    mapGet sExpired.memoryCache "k" = some entExpired ∧
    entExpired.expiration ≤ 10 ∧
    (CacheService.get sExpired "k" 10).1 = .ok .jnull ∧
    (CacheService.get sExpired "k" 10).2.memoryCache = [entExpired] := by
  decide

/-- Claim C8 (amended): a `get` that finds only expired copies records a
miss and returns absent but deletes nothing — both tiers are exactly as
before the call; expired entries are removed only by the separate
`cleanup` sweep, which prunes exactly the entries with `expiration <= now`
from the memory tier and from the durable store. -/
theorem c8_lazy_expiration_amended :
    (∀ (s : CacheState) (k : String) (now : Nat),
      (∀ e, mapGet s.memoryCache k = some e → e.expiration ≤ now) →
      (CacheService.getFromIndexedDB s.db k = .ok none ∨
        ∃ e, CacheService.getFromIndexedDB s.db k = .ok (some e) ∧
          e.expiration ≤ now) →
      CacheService.get s k now =
        (.ok .jnull, { s with missCount := s.missCount + 1 })) ∧
    (∀ (s : CacheState) (now : Nat), dbOk s.db →
      CacheService.cleanup s now = (.ok (), CacheService.updateStats { s with memoryCache := pruneExpired s.memoryCache now, db := dbPrune s.db now })) ∧
    (∀ (m : List CacheEntry) (now : Nat) (e : CacheEntry),
      e ∈ pruneExpired m now ↔ e ∈ m ∧ now < e.expiration) :=
  ⟨get_miss_spec, fun s now h => CacheService.cleanup_ok s now h,
    mem_pruneExpired⟩

/-- Witness for C8 (amended) at concrete expired entries. -/
theorem c8_lazy_expiration_witness :
    CacheService.get sExpired "k" 10 =
      (.ok .jnull, { sExpired with missCount := sExpired.missCount + 1 }) ∧
    CacheService.cleanup sExpiredBoth 10 = (.ok (), CacheService.updateStats { sExpiredBoth with memoryCache := pruneExpired sExpiredBoth.memoryCache 10, db := dbPrune sExpiredBoth.db 10 }) ∧
    (entExpired ∈ pruneExpired [entExpired] 10 ↔
      entExpired ∈ [entExpired] ∧ 10 < entExpired.expiration) :=
  ⟨c8_lazy_expiration_amended.1 sExpired "k" 10
      (fun e he => by
        have h0 : mapGet sExpired.memoryCache "k" = some entExpired := by
          decide
        rw [h0] at he
        rw [← Option.some.inj he]
        decide)
      (Or.inl rfl),
    c8_lazy_expiration_amended.2.1 sExpiredBoth 10 (by decide),
    c8_lazy_expiration_amended.2.2 [entExpired] 10 entExpired⟩

/-! ## Claim C10 -/

/-- Claim C10: `null` is both the absent sentinel and a storable payload.
With the durable tier absent or operational and room in the memory tier,
after `set(k, null, ttl)` a `get(k)` before expiry returns `null` while
recording a hit, and `has(k)` returns `false` — so the present `null`
entry is indistinguishable from a miss to callers of `get` and `has`. -/
theorem c10_null_payload (s : CacheState) (k : String) (ttl : Nat)
    (ty : String) (now now1 : Nat) (hok : dbOk s.db)
    (hroom : CacheService.calculateMemoryUsage s.memoryCache +
      CacheService.calculateSize .jnull ≤ CacheService.maxMemoryBytes)
    (hfresh : now1 < now + ttl) :
    (CacheService.set s k .jnull ttl ty now).1 = .ok () ∧
    (CacheService.get (CacheService.set s k .jnull ttl ty now).2 k now1).1 = .ok .jnull ∧
    (CacheService.get (CacheService.set s k .jnull ttl ty now).2 k now1).2.hitCount = (CacheService.set s k .jnull ttl ty now).2.hitCount + 1 ∧
    (CacheService.has (CacheService.set s k .jnull ttl ty now).2 k now1).1 = .ok false := by
  have hsz : (CacheService.buildEntry k .jnull ttl ty now).metadata.size <
      1024 * 1024 := by
    show CacheService.calculateSize .jnull < 1024 * 1024
    decide
  have hset := CacheService.set_ok s k .jnull ttl ty now hok
  rw [if_pos hsz] at hset
  have henf : CacheService.enforceMemoryLimit
      (mapSet s.memoryCache (CacheService.buildEntry k .jnull ttl ty now)) =
      mapSet s.memoryCache (CacheService.buildEntry k .jnull ttl ty now) := by
    refine CacheService.enforceMemoryLimit_of_le (le_trans
      (CacheService.usage_mapSet_le s.memoryCache _) ?_)
    exact hroom
  have hfound : mapGet
      ((CacheService.set s k .jnull ttl ty now).2).memoryCache k =
      some (CacheService.buildEntry k .jnull ttl ty now) := by
    rw [hset]
    show mapGet (CacheService.enforceMemoryLimit (mapSet s.memoryCache (CacheService.buildEntry k .jnull ttl ty now))) k = _
    rw [henf]
    exact mapGet_mapSet_self s.memoryCache (CacheService.buildEntry k .jnull ttl ty now)
  have hlive : now1 < (CacheService.buildEntry k .jnull ttl ty now).expiration :=
    hfresh
  have hget := CacheService.get_hit _ k now1 _ hfound hlive
  refine ⟨by rw [hset], by rw [hget]; exact rfl, by rw [hget], ?_⟩
  unfold CacheService.has
  rw [hget]
  exact rfl

/-- Witness for C10 on a concrete empty cache with an open durable tier. -/
theorem c10_null_payload_witness :
    (CacheService.set emptyDB "k" .jnull 100 "analysis" 0).1 = .ok () ∧
    (CacheService.get (CacheService.set emptyDB "k" .jnull 100 "analysis" 0).2 "k" 50).1 = .ok .jnull ∧
    (CacheService.get (CacheService.set emptyDB "k" .jnull 100 "analysis" 0).2 "k" 50).2.hitCount = (CacheService.set emptyDB "k" .jnull 100 "analysis" 0).2.hitCount + 1 ∧
    (CacheService.has (CacheService.set emptyDB "k" .jnull 100 "analysis" 0).2 "k" 50).1 = .ok false :=
  c10_null_payload emptyDB "k" 100 "analysis" 0 50 (by decide) (by decide)
    (by decide)

/-! ## Claim C1 -/

/-- Counterexample to C1 as stated: with the durable tier unavailable
(`indexedDB.open` failed, so `this.db === null`), `set` still resolves
successfully, but once the memory-resident copy is evicted a `get` well
before the TTL has elapsed returns absent instead of the stored value —
no durable tier retained the entry. -/
theorem c1_counterexample :
    (CacheService.set (initState none 0) "k" (.jstr "v") 1000 "analysis" 0).1 = .ok () ∧
    mapDelete (CacheService.set (initState none 0) "k" (.jstr "v") 1000 "analysis" 0).2.memoryCache "k" = [] ∧
    (500 : Nat) < 0 + 1000 ∧
    (CacheService.get { (CacheService.set (initState none 0) "k" (.jstr "v") 1000 "analysis" 0).2 with memoryCache := mapDelete (CacheService.set (initState none 0) "k" (.jstr "v") 1000 "analysis" 0).2.memoryCache "k" } "k" 500).1 = .ok .jnull ∧
    JsValue.jnull ≠ JsValue.jstr "v" := by
  decide

/-- Claim C1 (amended): write-through holds when the durable tier is open
and operational: after a successful `set(k, v, ttl)` at `t0`, a `get(k)`
at any `t1 < t0 + ttl` returns `v` on any memory-tier contents `m1` that
either lack `k` (e.g. after eviction of the memory-resident copy) or
still carry `v` for `k` — the durable tier serves the value.  (The second
proviso is needed because a `set` whose value is 1 MiB or larger leaves a
previously memory-resident entry for `k` in place.) -/
theorem c1_write_through_amended (s : CacheState) (st : List CacheEntry)
    (k : String) (v : JsValue) (ttl : Nat) (ty : String) (t0 t1 : Nat)
    (m1 : List CacheEntry)
    (hdb : s.db = some { store := st, failing := false })
    (hfresh : t1 < t0 + ttl)
    (hm1 : mapGet m1 k = none ∨ ∃ e, mapGet m1 k = some e ∧ e.data = v) :
    (CacheService.set s k v ttl ty t0).1 = .ok () ∧
    (CacheService.get { (CacheService.set s k v ttl ty t0).2 with memoryCache := m1 } k t1).1 = .ok v := by
  have hok : dbOk s.db := by
    rw [hdb]
    rfl
  have hset := CacheService.set_ok s k v ttl ty t0 hok
  have hsdb : ((CacheService.set s k v ttl ty t0).2).db =
      dbMapSet s.db (CacheService.buildEntry k v ttl ty t0) := by
    rw [hset, CacheService.updateStats_db]
  refine ⟨by rw [hset], ?_⟩
  have hs2db : ({ (CacheService.set s k v ttl ty t0).2 with memoryCache := m1 } : CacheState).db = some { store := mapSet st (CacheService.buildEntry k v ttl ty t0), failing := false } := by
    show ((CacheService.set s k v ttl ty t0).2).db = _
    rw [hsdb, hdb]
    rfl
  have hok2 : dbOk ({ (CacheService.set s k v ttl ty t0).2 with memoryCache := m1 } : CacheState).db := by
    rw [hs2db]
    rfl
  have hread : dbRead ({ (CacheService.set s k v ttl ty t0).2 with memoryCache := m1 } : CacheState).db k = some (CacheService.buildEntry k v ttl ty t0) := by
    rw [hs2db]
    exact mapGet_mapSet_self st (CacheService.buildEntry k v ttl ty t0)
  have hlive : t1 < (CacheService.buildEntry k v ttl ty t0).expiration := hfresh
  rcases hm1 with hnone | ⟨e, he, hedata⟩
  · rw [CacheService.get_of_mem_none _ k t1 hnone]
    exact CacheService.tryDurable_hit_fst _ k t1 _ hok2 hread hlive
  · by_cases hl : t1 < e.expiration
    · rw [CacheService.get_hit _ k t1 e he hl]
      rw [hedata]
    · rw [CacheService.get_of_mem_expired _ k t1 e he hl]
      exact CacheService.tryDurable_hit_fst _ k t1 _ hok2 hread hlive

/-- Witness for C1 (amended): an empty operational durable tier, the
memory copy evicted. -/
theorem c1_write_through_witness :
    (CacheService.set emptyDB "k" (.jstr "v") 1000 "analysis" 0).1 = .ok () ∧
    (CacheService.get { (CacheService.set emptyDB "k" (.jstr "v") 1000 "analysis" 0).2 with memoryCache := [] } "k" 500).1 = .ok (.jstr "v") :=
  c1_write_through_amended emptyDB [] "k" (.jstr "v") 1000 "analysis" 0 500 []
    rfl (by decide) (Or.inl rfl)

/-! ## Claim C6 -/

/-- Counterexample to C6 as stated: when an issued IndexedDB request fails
(the request rejects), the rejection propagates out of `get`, `set` and
`delete` to the caller instead of being swallowed. -/
theorem c6_counterexample :
    (CacheService.get failS "k" 0).1 = .error .mk ∧
    (CacheService.set failS "k" .jnull 5 "analysis" 0).1 = .error .mk ∧
    (CacheService.delete failS "k").1 = .error .mk := by
  decide

/-- Claim C6 (amended): only unavailability of the durable store
(`this.db === null`) is isolated: `get` then resolves (with the absent
sentinel on a memory miss), `set` and `delete` resolve successfully.  A
failing issued request, however, propagates its rejection to the caller
of `get`/`set`/`delete`; for a small `set` the memory-tier write is
nevertheless retained on the instance, so the value remains readable for
the process lifetime. -/
theorem c6_failure_isolation_amended :
    (∀ (s : CacheState) (k : String) (now : Nat), s.db = none →
      ∃ v, (CacheService.get s k now).1 = .ok v) ∧
    (∀ (s : CacheState) (k : String) (v : JsValue) (ttl : Nat)
      (ty : String) (now : Nat), s.db = none →
      (CacheService.set s k v ttl ty now).1 = .ok ()) ∧
    (∀ (s : CacheState) (k : String), s.db = none →
      (CacheService.delete s k).1 = .ok ()) ∧
    (∀ (s : CacheState) (st : List CacheEntry) (k : String) (now : Nat),
      s.db = some { store := st, failing := true } →
      mapGet s.memoryCache k = none →
      (CacheService.get s k now).1 = .error .mk) ∧
    (∀ (s : CacheState) (st : List CacheEntry) (k : String) (v : JsValue)
      (ttl : Nat) (ty : String) (now : Nat),
      s.db = some { store := st, failing := true } →
      CacheService.calculateSize v < 1024 * 1024 →
      CacheService.calculateMemoryUsage s.memoryCache +
        CacheService.calculateSize v ≤ CacheService.maxMemoryBytes →
      (CacheService.set s k v ttl ty now).1 = .error .mk ∧
      ∃ e, mapGet ((CacheService.set s k v ttl ty now).2).memoryCache k = some e ∧ e.data = v) := by
  refine ⟨?_, ?_, ?_, ?_, ?_⟩
  · intro s k now hdb
    have hok : dbOk s.db := by
      rw [hdb]
      trivial
    rcases hm : mapGet s.memoryCache k with _ | entry
    · rw [CacheService.get_of_mem_none s k now hm,
        CacheService.tryDurable_dbnone s k now hdb]
      exact ⟨.jnull, rfl⟩
    · by_cases hl : now < entry.expiration
      · rw [CacheService.get_hit s k now entry hm hl]
        exact ⟨entry.data, rfl⟩
      · rw [CacheService.get_of_mem_expired s k now entry hm hl,
          CacheService.tryDurable_dbnone s k now hdb]
        exact ⟨.jnull, rfl⟩
  · intro s k v ttl ty now hdb
    have hok : dbOk s.db := by
      rw [hdb]
      trivial
    rw [CacheService.set_ok s k v ttl ty now hok]
  · intro s k hdb
    have hok : dbOk s.db := by
      rw [hdb]
      trivial
    rw [CacheService.delete_ok s k hok]
  · intro s st k now hdb hm
    rw [CacheService.get_of_mem_none s k now hm]
    unfold CacheService.tryDurable
    rw [hdb]
    exact rfl
  · intro s st k v ttl ty now hdb hsmall hroom
    have hsz : (CacheService.buildEntry k v ttl ty now).metadata.size <
        1024 * 1024 := hsmall
    have herr : CacheService.setInIndexedDB s.db
        (CacheService.buildEntry k v ttl ty now) = .error .mk := by
      rw [hdb]
      rfl
    have henf : CacheService.enforceMemoryLimit (mapSet s.memoryCache (CacheService.buildEntry k v ttl ty now)) = mapSet s.memoryCache (CacheService.buildEntry k v ttl ty now) :=
      CacheService.enforceMemoryLimit_of_le
        (le_trans (CacheService.usage_mapSet_le _ _) hroom)
    have hset : CacheService.set s k v ttl ty now = (.error .mk, { s with memoryCache := CacheService.enforceMemoryLimit (mapSet s.memoryCache (CacheService.buildEntry k v ttl ty now)) }) := by
      unfold CacheService.set
      dsimp only
      simp only [if_pos hsz]
      rw [herr]
    refine ⟨by rw [hset], ⟨CacheService.buildEntry k v ttl ty now, ?_, rfl⟩⟩
    rw [hset]
    show mapGet (CacheService.enforceMemoryLimit (mapSet s.memoryCache (CacheService.buildEntry k v ttl ty now))) k = _
    rw [henf]
    exact mapGet_mapSet_self s.memoryCache (CacheService.buildEntry k v ttl ty now)

/-- Witness for C6 (amended) at concrete states: a never-opened durable
store is isolated, a failing one propagates while the memory write
survives on the instance. -/
theorem c6_failure_isolation_witness :
    (∃ v, (CacheService.get (initState none 0) "k" 0).1 = .ok v) ∧
    (CacheService.set (initState none 0) "k" .jnull 5 "analysis" 0).1 = .ok () ∧
    (CacheService.delete (initState none 0) "k").1 = .ok () ∧
    (CacheService.get failS "a" 0).1 = .error .mk ∧
    ((CacheService.set failS "a" (.jstr "w") 5 "analysis" 0).1 = .error .mk ∧
      ∃ e, mapGet ((CacheService.set failS "a" (.jstr "w") 5 "analysis" 0).2).memoryCache "a" = some e ∧ e.data = .jstr "w") :=
  ⟨c6_failure_isolation_amended.1 (initState none 0) "k" 0 rfl,
    c6_failure_isolation_amended.2.1 (initState none 0) "k" .jnull 5 "analysis" 0 rfl,
    c6_failure_isolation_amended.2.2.1 (initState none 0) "k" rfl,
    c6_failure_isolation_amended.2.2.2.1 failS [] "a" 0 rfl (by decide),
    c6_failure_isolation_amended.2.2.2.2 failS [] "a" (.jstr "w") 5
      "analysis" 0 rfl (by decide) (by decide)⟩

/-! ## Claim C7 -/

/-- Counterexample to C7 as stated: a trace with one hit and one miss whose
next published snapshot shows `hitRate = 50` — the source publishes the
percentage `(hits / requests) * 100`, not the ratio `H / (H + M) = 1/2`
the claim states. -/
theorem c7_counterexample :
    c7s4.hitCount = 1 ∧ c7s4.missCount = 1 ∧
    c7s4.stats.hitRate = 50 ∧ (50 : ℚ) ≠ 1 / 2 := by
  have hdb3 : c7s3.db = none := by decide
  have hh : c7s3.hitCount = 1 := by decide
  have hm : c7s3.missCount = 1 := by decide
  have hok : dbOk c7s3.db := by
    rw [hdb3]
    trivial
  have hdel : c7s4 = CacheService.updateStats { c7s3 with memoryCache := mapDelete c7s3.memoryCache "b", db := dbMapDelete c7s3.db "b" } := by
    show (CacheService.delete c7s3 "b").2 = _
    rw [CacheService.delete_ok c7s3 "b" hok]
  refine ⟨by decide, by decide, ?_, by norm_num⟩
  rw [hdel, CacheService.updateStats_hitRate]
  dsimp only
  rw [hh, hm]
  norm_num

/-- Claim C7 (amended): a stats-publishing operation (`set`, `delete`,
`clear`, `cleanup` — `get` does not republish) exposes `hitRate` as the
percentage `100 * H / (H + M)` of the counters at publication time, or 0
when there have been no requests; and `clear` (durable tier absent or
operational) zeroes both counters and publishes `hitRate = 0`, so later
snapshots reflect only post-`clear` requests. -/
theorem c7_hit_rate_amended :
    (∀ s : CacheState, 0 < s.hitCount + s.missCount →
      (CacheService.updateStats s).stats.hitRate =
        100 * (s.hitCount : ℚ) / ((s.hitCount : ℚ) + (s.missCount : ℚ))) ∧
    (∀ s : CacheState, s.hitCount + s.missCount = 0 →
      (CacheService.updateStats s).stats.hitRate = 0) ∧
    (∀ s : CacheState, dbOk s.db →
      (CacheService.clear s).2.hitCount = 0 ∧
      (CacheService.clear s).2.missCount = 0 ∧
      (CacheService.clear s).2.stats.hitRate = 0 ∧
      (CacheService.clear s).1 = .ok ()) := by
  refine ⟨?_, ?_, ?_⟩
  · intro s h
    rw [CacheService.updateStats_hitRate, if_pos h]
    push_cast
    ring
  · intro s h
    rw [CacheService.updateStats_hitRate, if_neg (by omega)]
  · intro s hok
    rw [CacheService.clear_ok s hok]
    exact ⟨rfl, rfl, rfl, rfl⟩

/-- Witness for C7 (amended) at concrete counter values. -/
theorem c7_hit_rate_witness :
    (CacheService.updateStats c7w).stats.hitRate =
      100 * (c7w.hitCount : ℚ) / ((c7w.hitCount : ℚ) + (c7w.missCount : ℚ)) ∧
    (CacheService.updateStats (initState none 0)).stats.hitRate = 0 ∧
    ((CacheService.clear c7w).2.hitCount = 0 ∧
      (CacheService.clear c7w).2.missCount = 0 ∧
      (CacheService.clear c7w).2.stats.hitRate = 0 ∧
      (CacheService.clear c7w).1 = .ok ()) :=
  ⟨c7_hit_rate_amended.1 c7w (by decide),
    c7_hit_rate_amended.2.1 (initState none 0) (by decide),
    c7_hit_rate_amended.2.2 c7w (by decide)⟩

/-! ## Claim C5 -/

/-- Claim C5: the promotion threshold.  (a) For a freshly written entry
(`accessCount` 0) resident only in the operational durable tier, under the
1 MiB per-entry threshold and with room in the memory tier, the first and
the second successful `get` do not copy it into the memory tier and the
third `get` does.  (b) An entry whose recorded size is 1 MiB or more is
never copied into the memory tier by `get`. -/
theorem c5_promotion_threshold :
    (∀ (s : CacheState) (st : List CacheEntry) (k : String)
      (e : CacheEntry) (now : Nat),
      s.db = some { store := st, failing := false } →
      mapGet st k = some e →
      e.accessCount = 0 →
      e.metadata.size < 1024 * 1024 →
      mapGet s.memoryCache k = none →
      now < e.expiration →
      CacheService.calculateMemoryUsage s.memoryCache + e.metadata.size ≤
        CacheService.maxMemoryBytes →
      promoConcl s k now) ∧
    (∀ (s : CacheState) (d : DBState) (k : String) (e : CacheEntry)
      (now : Nat),
      s.db = some d →
      mapGet d.store k = some e →
      1024 * 1024 ≤ e.metadata.size →
      mapGet s.memoryCache k = none →
      ((CacheService.get s k now).2).memoryCache = s.memoryCache) := by
  constructor
  · intro s st k e now hdb hfound hacc hsize hmem hlive hroom
    have hkey : e.key = k := mapGet_key st k e hfound
    have hok : dbOk s.db := by
      rw [hdb]
      rfl
    have hread1 : dbRead s.db k = some e := by
      rw [hdb]
      exact hfound
    have hnop1 : ¬ (2 < e.accessCount + 1 ∧
        e.metadata.size < 1024 * 1024) := by
      rw [hacc]
      rintro ⟨hcon, _⟩
      omega
    have hg1 : CacheService.get s k now = (.ok e.data, { s with db := some { store := mapSet st (CacheService.bump e now), failing := false }, hitCount := s.hitCount + 1 }) := by
      rw [CacheService.get_of_mem_none s k now hmem,
        CacheService.tryDurable_hit_nopromo s k now e hok hread1 hlive hnop1,
        hdb]
      rfl
    have hself2 : mapGet (mapSet st (CacheService.bump e now)) k =
        some (CacheService.bump e now) := by
      have h0 := mapGet_mapSet_self st (CacheService.bump e now)
      rw [show (CacheService.bump e now).key = k from hkey] at h0
      exact h0
    have hnop2 : ¬ (2 < (CacheService.bump e now).accessCount + 1 ∧
        (CacheService.bump e now).metadata.size < 1024 * 1024) := by
      rintro ⟨hcon, _⟩
      rw [show (CacheService.bump e now).accessCount = e.accessCount + 1
        from rfl, hacc] at hcon
      omega
    have hg2 : CacheService.get { s with db := some { store := mapSet st (CacheService.bump e now), failing := false }, hitCount := s.hitCount + 1 } k now = (.ok (CacheService.bump e now).data, { s with db := some { store := mapSet (mapSet st (CacheService.bump e now)) (CacheService.bump (CacheService.bump e now) now), failing := false }, hitCount := s.hitCount + 1 + 1 }) := by
      rw [CacheService.get_of_mem_none { s with db := some { store := mapSet st (CacheService.bump e now), failing := false }, hitCount := s.hitCount + 1 } k now hmem,
        CacheService.tryDurable_hit_nopromo { s with db := some { store := mapSet st (CacheService.bump e now), failing := false }, hitCount := s.hitCount + 1 } k now (CacheService.bump e now)
          rfl hself2 hlive hnop2]
      rfl
    have hself3 : mapGet (mapSet (mapSet st (CacheService.bump e now)) (CacheService.bump (CacheService.bump e now) now)) k = some (CacheService.bump (CacheService.bump e now) now) := by
      have h0 := mapGet_mapSet_self (mapSet st (CacheService.bump e now))
        (CacheService.bump (CacheService.bump e now) now)
      rw [show (CacheService.bump (CacheService.bump e now) now).key = k
        from hkey] at h0
      exact h0
    have hpro3 : 2 < (CacheService.bump (CacheService.bump e now) now).accessCount + 1 ∧ (CacheService.bump (CacheService.bump e now) now).metadata.size < 1024 * 1024 := by
      constructor
      · rw [show (CacheService.bump (CacheService.bump e now) now).accessCount
          = e.accessCount + 1 + 1 from rfl, hacc]
        omega
      · exact hsize
    have hg3 : CacheService.get { s with db := some { store := mapSet (mapSet st (CacheService.bump e now)) (CacheService.bump (CacheService.bump e now) now), failing := false }, hitCount := s.hitCount + 1 + 1 } k now = (.ok (CacheService.bump (CacheService.bump e now) now).data, { s with memoryCache := CacheService.enforceMemoryLimit (mapSet s.memoryCache (CacheService.bump (CacheService.bump (CacheService.bump e now) now) now)), db := some { store := mapSet (mapSet (mapSet st (CacheService.bump e now)) (CacheService.bump (CacheService.bump e now) now)) (CacheService.bump (CacheService.bump (CacheService.bump e now) now) now), failing := false }, hitCount := s.hitCount + 1 + 1 + 1 }) := by
      rw [CacheService.get_of_mem_none { s with db := some { store := mapSet (mapSet st (CacheService.bump e now)) (CacheService.bump (CacheService.bump e now) now), failing := false }, hitCount := s.hitCount + 1 + 1 } k now hmem,
        CacheService.tryDurable_hit_promo { s with db := some { store := mapSet (mapSet st (CacheService.bump e now)) (CacheService.bump (CacheService.bump e now) now), failing := false }, hitCount := s.hitCount + 1 + 1 } k now
          (CacheService.bump (CacheService.bump e now) now)
          rfl hself3 hlive hpro3]
      rfl
    have henf3 : CacheService.enforceMemoryLimit (mapSet s.memoryCache (CacheService.bump (CacheService.bump (CacheService.bump e now) now) now)) = mapSet s.memoryCache (CacheService.bump (CacheService.bump (CacheService.bump e now) now) now) := by
      refine CacheService.enforceMemoryLimit_of_le
        (le_trans (CacheService.usage_mapSet_le _ _) ?_)
      exact hroom
    unfold promoConcl
    rw [hg1, hg2, hg3]
    refine ⟨hmem, hmem, ⟨CacheService.bump (CacheService.bump (CacheService.bump e now) now) now, ?_⟩⟩
    show mapGet (CacheService.enforceMemoryLimit (mapSet s.memoryCache (CacheService.bump (CacheService.bump (CacheService.bump e now) now) now))) k = _
    rw [henf3]
    have h0 := mapGet_mapSet_self s.memoryCache
      (CacheService.bump (CacheService.bump (CacheService.bump e now) now) now)
    rw [show (CacheService.bump (CacheService.bump (CacheService.bump e now) now) now).key = k from hkey] at h0
    exact h0
  · intro s d k e now hdb hfound hbig hmem
    rw [CacheService.get_of_mem_none s k now hmem]
    cases hf : d.failing with
    | true =>
      have herr : CacheService.getFromIndexedDB s.db k = .error .mk := by
        rw [hdb]
        simp [CacheService.getFromIndexedDB, hf]
      have htd : CacheService.tryDurable s k now = (.error .mk, s) := by
        unfold CacheService.tryDurable
        rw [herr]
      rw [htd]
    | false =>
      have hok : dbOk s.db := by
        rw [hdb]
        exact hf
      have hread : dbRead s.db k = some e := by
        rw [hdb]
        exact hfound
      by_cases hl : now < e.expiration
      · have hnop : ¬ (2 < e.accessCount + 1 ∧
            e.metadata.size < 1024 * 1024) := by
          rintro ⟨_, hcon⟩
          omega
        rw [CacheService.tryDurable_hit_nopromo s k now e hok hread hl hnop]
      · rw [CacheService.tryDurable_found_expired s k now e hok hread hl]

/-- Witness for C5 at concrete durable-only entries (a small one accessed
three times, and a 2 MiB one). -/
theorem c5_promotion_threshold_witness :
    promoConcl sDurableOnly "k" 1 ∧
    ((CacheService.get sBigDurable "k" 1).2).memoryCache =
      sBigDurable.memoryCache :=
  ⟨c5_promotion_threshold.1 sDurableOnly [entLive] "k" entLive 1 rfl
      (by decide) (by decide) (by decide) (by decide) (by decide) (by decide),
    c5_promotion_threshold.2 sBigDurable { store := [entBig], failing := false }
      "k" entBig 1 rfl (by decide) (by decide) (by decide)⟩

/-! ## Claim C4 -/

/-- Counterexample to C4's tie-break as stated: 51 memory-resident entries
all tied on `lastAccessed`, with `accessCount` strictly decreasing in map
insertion order, together exceeding the ceiling by one entry's worth.  The
claimed tie-break (lowest `accessCount` first) would evict the last entry
(`accessCount` 0, key `"50"`); the code's stable sort keeps insertion
order on ties and evicts the first entry (`accessCount` 50, key `"0"`),
leaving the `accessCount`-0 entry resident. -/
theorem c4_counterexample :
    (∀ e ∈ exM, e.lastAccessed = 100) ∧
    (exEntry 0).accessCount = 50 ∧
    (exEntry 50).accessCount = 0 ∧
    CacheService.maxMemoryBytes < CacheService.calculateMemoryUsage exM ∧
    CacheService.enforceMemoryLimit exM = exM.drop 1 ∧
    exEntry 0 ∉ CacheService.enforceMemoryLimit exM ∧
    exEntry 50 ∈ CacheService.enforceMemoryLimit exM := by
  decide

/-- Claim C4 (amended): when the resident size exceeds the ceiling,
eviction works through the map's entries in ascending `lastAccessed`
order, breaking ties by map insertion order (a stable sort — NOT by
lowest `accessCount`), deleting the keys of a prefix of that order,
recomputing the size before each removal and removing only while it still
exceeds the ceiling, stopping with the resident size at or below the
ceiling; entries are only removed from the memory tier, never altered,
and the durable tier is not involved (`enforceMemoryLimit` acts on the
memory map alone). -/
theorem c4_eviction_amended (m : List CacheEntry)
    (hover : CacheService.maxMemoryBytes <
      CacheService.calculateMemoryUsage m) :
    evictionSpecProp m := by
  refine ⟨CacheService.sorted_sortByLastAccessed m,
    CacheService.sortByLastAccessed_stable m, ?_, ?_⟩
  · intro e he
    unfold CacheService.enforceMemoryLimit at he
    rw [if_pos hover] at he
    exact CacheService.mem_of_mem_evictLoop he
  · obtain ⟨n, hn, heq, hj, _⟩ :=
      CacheService.evictLoop_spec (CacheService.sortByLastAccessed m) m
    have henf : CacheService.enforceMemoryLimit m =
        CacheService.evictLoop m (CacheService.sortByLastAccessed m) := by
      unfold CacheService.enforceMemoryLimit
      rw [if_pos hover]
    exact ⟨n, hn, by rw [henf, heq], hj,
      CacheService.usage_enforceMemoryLimit_le m⟩

/-- Witness for C4 (amended) on the concrete over-ceiling memory tier. -/
theorem c4_eviction_witness : evictionSpecProp exM :=
  c4_eviction_amended exM (by decide)

end ObsequiNG
